import Mathlib

/-!
Shallow embedding of `src/platform/posix/btstack_uart_posix.c`, the POSIX
UART driver of BTstack: block-mode resumable reads/writes, SLIP frame-mode
encode/decode pipelines, and the readiness dispatcher.

Modelling conventions:
- The driver is single-threaded and event-driven.  Each C dispatch handler
  becomes a pure function from the engine state (the module-level statics)
  and the environment inputs (syscall results, current time) to the new
  state plus a trace of observable actions.
- Run-loop `enable/disable_data_source_callbacks` calls, `log_error` calls,
  completion-callback invocations and `read` syscalls are recorded as
  events (`UartEv`); completion handlers are taken as registered.
- C `int` variables are `Int`; C `uint16_t` counters are `Nat`.  POSIX
  guarantees `read`/`write` return at most the requested count, which the
  theorems assume where relevant, so the `Nat` subtraction coincides with
  the C `uint16_t` arithmetic on all modelled runs.
- Buffer pointers that are only advanced are modelled as offsets; the SLIP
  scratch buffer, whose contents are fed to the decoder, is a `List Nat`.
- The SLIP codec lives in `btstack_slip.c`, outside this component; it is
  abstracted exactly at the call contract the spec gives for it (encoder =
  pending output byte stream, decoder = arbitrary step function plus frame
  size query), see the doc comments on the respective fields.
- `log_info` calls and the millisecond timing instrumentation influence
  only log output in the C code; the time-tracking state that the code
  mutates (`track_start`, `start_time`) is kept, the log text is not.
-/

namespace BtstackUartPosix

/-- Observable actions of one dispatch or request call: run-loop interest
arming/disarming, error logging, completion callbacks, chunk submissions to
the write path, and `read` syscalls. -/
inductive UartEv where
  | armRead
  | disarmRead
  | armWrite
  | disarmWrite
  | logError
  | blockSent
  | blockReceived
  | frameSent
  | frameReceived (frame_size : Nat)
  | chunkSubmitted (size : Nat)
  | sysRead (n : Int)
  deriving DecidableEq, Repr

/-- Block-transfer engine state: `btstack_uart_block_write_bytes_len` (C
`int`) with its data pointer as an offset, and
`btstack_uart_block_read_bytes_len` (C `uint16_t`) with its data pointer as
an offset. -/
structure BlockState where
  write_bytes_len : Int
  write_bytes_off : Nat
  read_bytes_len : Nat
  read_bytes_off : Nat
  deriving DecidableEq, Repr

/-- `btstack_uart_posix_send_block`: record the outstanding write and arm
write-readiness. -/
def btstack_uart_posix_send_block (s : BlockState) (size : Nat) :
    BlockState × List UartEv :=
  ({ s with write_bytes_off := 0, write_bytes_len := (size : Int) },
   [UartEv.armWrite])

/-- `btstack_uart_posix_receive_block`: record the outstanding read and arm
read-readiness. -/
def btstack_uart_posix_receive_block (s : BlockState) (len : Nat) :
    BlockState × List UartEv :=
  ({ s with read_bytes_off := 0, read_bytes_len := len }, [UartEv.armRead])

/-- `btstack_uart_block_posix_process_write`: one write-readiness dispatch;
`bytes_written` is the result of the `write` syscall on the remaining
range. -/
def btstack_uart_block_posix_process_write (s : BlockState)
    (bytes_written : Int) : BlockState × List UartEv :=
  if s.write_bytes_len = 0 then (s, [])
  else if bytes_written = 0 then (s, [UartEv.logError])
  else if bytes_written < 0 then (s, [UartEv.logError, UartEv.armWrite])
  else
    let s' : BlockState :=
      { s with write_bytes_off := s.write_bytes_off + bytes_written.toNat,
               write_bytes_len := s.write_bytes_len - bytes_written }
    if s'.write_bytes_len ≠ 0 then (s', [UartEv.armWrite])
    else (s', [UartEv.disarmWrite, UartEv.blockSent])

/-- `btstack_uart_block_posix_process_read`: one read-readiness dispatch;
`bytes_read` is the result of the `read` syscall for the remaining count.
Note the C entry guard for "no read pending" disarms read interest but does
not return, so the syscall still happens. -/
def btstack_uart_block_posix_process_read (s : BlockState)
    (bytes_read : Int) : BlockState × List UartEv :=
  let pre : List UartEv :=
    (if s.read_bytes_len = 0 then [UartEv.disarmRead] else []) ++
      [UartEv.sysRead bytes_read]
  if bytes_read = 0 then (s, pre ++ [UartEv.logError])
  else if bytes_read < 0 then (s, pre ++ [UartEv.logError])
  else
    let s' : BlockState :=
      { s with read_bytes_len := s.read_bytes_len - bytes_read.toNat,
               read_bytes_off := s.read_bytes_off + bytes_read.toNat }
    if 0 < s'.read_bytes_len then (s', pre)
    else (s', pre ++ [UartEv.disarmRead, UartEv.blockReceived])

/-- Fold a sequence of write-readiness dispatches over the block engine.
Each syscall result is given as a `Nat` (POSIX: `write` returns at most the
requested count, never more), returning the per-dispatch event logs. -/
def runBlockWrites : BlockState → List Nat → BlockState × List (List UartEv)
  | s, [] => (s, [])
  | s, r :: rs =>
    let p := btstack_uart_block_posix_process_write s (r : Int)
    let q := runBlockWrites p.1 rs
    (q.1, p.2 :: q.2)

/-- Fold a sequence of read-readiness dispatches over the block engine,
returning the per-dispatch event logs. -/
def runBlockReads : BlockState → List Nat → BlockState × List (List UartEv)
  | s, [] => (s, [])
  | s, r :: rs =>
    let p := btstack_uart_block_posix_process_read s (r : Int)
    let q := runBlockReads p.1 rs
    (q.1, p.2 :: q.2)

/-- `SLIP_TX_CHUNK_LEN`: capacity of the outgoing SLIP chunk buffer. -/
def SLIP_TX_CHUNK_LEN : Nat := 128

/-- `SLIP_RECEIVE_BUFFER_SIZE`: capacity of the SLIP receive scratch
buffer. -/
def SLIP_RECEIVE_BUFFER_SIZE : Nat := 128

/-- SLIP frame-send engine state: `btstack_uart_slip_write_bytes_len` (C
`int`) with its data pointer as an offset into the outgoing chunk buffer,
the `write_active` flag, the chunk buffer contents, and the encoder. -/
structure SlipTxState where
  write_bytes_len : Int
  write_bytes_off : Nat
  write_active : Bool
  outgoing_buffer : List Nat
  /-- Modelled from the spec: the SLIP encoder (`encoder_start`,
  `encoder_has_pending`, `encoder_next_byte`; implemented in
  `btstack_slip.c`, which is external to this component) is represented by
  the stream of encoded bytes it has yet to emit; `has_pending` is
  nonemptiness and `next_byte` pops the head. -/
  encoder_rem : List Nat
  deriving DecidableEq, Repr

/-- `btstack_uart_slip_posix_encode_chunk_and_send`: pull encoder output
into the chunk buffer while the encoder has data and the buffer is below
`SLIP_TX_CHUNK_LEN`, then submit the chunk as an asynchronous write and arm
write-readiness. -/
def btstack_uart_slip_posix_encode_chunk_and_send (s : SlipTxState) :
    SlipTxState × List UartEv :=
  let pos := min s.encoder_rem.length SLIP_TX_CHUNK_LEN
  ({ s with outgoing_buffer := s.encoder_rem.take pos,
            encoder_rem := s.encoder_rem.drop pos,
            write_bytes_off := 0,
            write_bytes_len := (pos : Int) },
   [UartEv.chunkSubmitted pos, UartEv.armWrite])

/-- `btstack_uart_slip_posix_block_sent`: chunk fully written; either build
and send the next chunk or mark the send inactive and fire `frame_sent`. -/
def btstack_uart_slip_posix_block_sent (s : SlipTxState) :
    SlipTxState × List UartEv :=
  if s.encoder_rem ≠ [] then btstack_uart_slip_posix_encode_chunk_and_send s
  else ({ s with write_active := false }, [UartEv.frameSent])

/-- `btstack_uart_slip_posix_process_write`: one write-readiness dispatch
of the SLIP write path; `bytes_written` is the `write` syscall result.
Unlike the block engine, a zero result is not special-cased here. -/
def btstack_uart_slip_posix_process_write (s : SlipTxState)
    (bytes_written : Int) : SlipTxState × List UartEv :=
  if s.write_bytes_len = 0 then (s, [])
  else if bytes_written < 0 then (s, [UartEv.armWrite])
  else
    let s' : SlipTxState :=
      { s with write_bytes_off := s.write_bytes_off + bytes_written.toNat,
               write_bytes_len := s.write_bytes_len - bytes_written }
    if s'.write_bytes_len ≠ 0 then (s', [UartEv.armWrite])
    else
      let p := btstack_uart_slip_posix_block_sent s'
      (p.1, UartEv.disarmWrite :: p.2)

/-- `btstack_uart_slip_posix_send_frame`: mark the send active, start the
encoder on the frame (`encoded` is the byte stream the encoder will emit
for it, see `SlipTxState.encoder_rem`), and send the first chunk. -/
def btstack_uart_slip_posix_send_frame (s : SlipTxState)
    (encoded : List Nat) : SlipTxState × List UartEv :=
  btstack_uart_slip_posix_encode_chunk_and_send
    { s with write_active := true, encoder_rem := encoded }

/-- Drive the SLIP write path with full physical writes: each
write-readiness dispatch writes the whole remaining chunk.  Stops when the
send is no longer active. -/
def runSlipFullWrites : Nat → SlipTxState → SlipTxState × List UartEv
  | 0, s => (s, [])
  | fuel + 1, s =>
    if s.write_active then
      let p := btstack_uart_slip_posix_process_write s s.write_bytes_len
      let q := runSlipFullWrites fuel p.1
      (q.1, p.2 ++ q.2)
    else (s, [])

/-- A complete frame send under full physical writes: `send_frame` followed
by write-readiness dispatches until the send completes (`encoded.length`
dispatches are always enough). -/
def slipSendFullRun (s : SlipTxState) (encoded : List Nat) :
    SlipTxState × List UartEv :=
  let p := btstack_uart_slip_posix_send_frame s encoded
  let q := runSlipFullWrites encoded.length p.1
  (q.1, p.2 ++ q.2)

/-- SLIP frame-receive engine state over a decoder state type `δ`:
the scratch buffer with its `pos`/`len` cursors, the timing-tracking flag
and timestamp, the `receive_active` flag, and the decoder. -/
structure SlipRxState (δ : Type) where
  receive_buffer : List Nat
  receive_pos : Nat
  receive_len : Nat
  receive_track_start : Bool
  receive_start_time : Nat
  receive_active : Bool
  /-- Modelled from the spec: the SLIP decoder (`decoder_init`,
  `decoder_feed(byte) -> frame_size_or_zero`; implemented in
  `btstack_slip.c`, which is external to this component) is an abstract
  state; every theorem is parameterized over an arbitrary feed function
  `decStep` and frame-size query `decSize` matching that contract. -/
  dec : δ
  deriving DecidableEq, Repr

/-- The while loop of `btstack_uart_slip_posix_process_buffer`, with
explicit fuel: feed `buf` bytes to the decoder, advancing `pos`, while
`pos < len` and no frame has been reported.  Returns the new position,
decoder state, and reported frame size (0 if none). -/
def processLoopFuel {δ : Type} (decStep : δ → Nat → δ) (decSize : δ → Nat)
    (buf : List Nat) (len : Nat) : Nat → Nat → δ → Nat × δ × Nat
  | 0, pos, d => (pos, d, 0)
  | fuel + 1, pos, d =>
    if pos < len then
      let d' := decStep d (buf.getD pos 0)
      let fs := decSize d'
      if fs = 0 then processLoopFuel decStep decSize buf len fuel (pos + 1) d'
      else (pos + 1, d', fs)
    else (pos, d, 0)

/-- The decode loop with the exact fuel it needs (`len - pos` iterations
suffice, as each iteration increments `pos`). -/
def processLoop {δ : Type} (decStep : δ → Nat → δ) (decSize : δ → Nat)
    (buf : List Nat) (len pos : Nat) (d : δ) : Nat × δ × Nat :=
  processLoopFuel decStep decSize buf len (len - pos) pos d

/-- `btstack_uart_slip_posix_process_buffer`: feed buffered bytes to the
decoder; reset both cursors if the buffer was fully consumed; on a complete
frame mark the receive done, handle the timing bookkeeping, and invoke
`frame_received` with the frame size.  Returns the frame size (0 if no
frame completed). -/
def btstack_uart_slip_posix_process_buffer {δ : Type}
    (decStep : δ → Nat → δ) (decSize : δ → Nat) (s : SlipRxState δ) :
    SlipRxState δ × List UartEv × Nat :=
  let r := processLoop decStep decSize s.receive_buffer s.receive_len
    s.receive_pos s.dec
  let s1 : SlipRxState δ := { s with receive_pos := r.1, dec := r.2.1 }
  let frame_size := r.2.2
  let s2 : SlipRxState δ :=
    if s1.receive_pos = s1.receive_len then
      { s1 with receive_len := 0, receive_pos := 0 }
    else s1
  if frame_size ≠ 0 then
    let s3 : SlipRxState δ := { s2 with receive_active := false }
    let s4 : SlipRxState δ :=
      if s3.receive_track_start = false then
        { s3 with receive_start_time := 0 }
      else s3
    (s4, [UartEv.frameReceived frame_size], frame_size)
  else (s2, [], 0)

/-- `btstack_uart_slip_posix_process_read`: one read-readiness dispatch of
the SLIP read path.  `bytes_read` is the `read` syscall result for up to
`SLIP_RECEIVE_BUFFER_SIZE` bytes and `data` the bytes it delivered (so
`data.length = bytes_read.toNat ≤ SLIP_RECEIVE_BUFFER_SIZE` on POSIX
behaviour); `now` is the run-loop time. -/
def btstack_uart_slip_posix_process_read {δ : Type}
    (decStep : δ → Nat → δ) (decSize : δ → Nat) (now : Nat)
    (bytes_read : Int) (data : List Nat) (s : SlipRxState δ) :
    SlipRxState δ × List UartEv :=
  let s1 : SlipRxState δ :=
    if s.receive_track_start then
      { s with receive_track_start := false, receive_start_time := now }
    else s
  if bytes_read < 0 then (s1, [UartEv.sysRead bytes_read])
  else
    let s2 : SlipRxState δ :=
      { s1 with receive_pos := 0, receive_len := bytes_read.toNat,
                receive_buffer := data }
    let p := btstack_uart_slip_posix_process_buffer decStep decSize s2
    (p.1, UartEv.sysRead bytes_read :: p.2.1)

/-- `btstack_uart_slip_posix_receive_frame`: mark the receive active, start
timing tracking, initialize the decoder against the caller's destination
buffer (`decInit` is the freshly initialized decoder state), drain any
bytes buffered by an earlier read first, and arm read-readiness only if no
complete frame resulted from them. -/
def btstack_uart_slip_posix_receive_frame {δ : Type}
    (decStep : δ → Nat → δ) (decSize : δ → Nat) (decInit : δ)
    (s : SlipRxState δ) : SlipRxState δ × List UartEv :=
  let s1 : SlipRxState δ :=
    { s with receive_active := true, receive_track_start := true,
             dec := decInit }
  if s1.receive_len ≠ 0 then
    let p := btstack_uart_slip_posix_process_buffer decStep decSize s1
    if p.2.2 ≠ 0 then (p.1, p.2.1)
    else (p.1, p.2.1 ++ [UartEv.armRead])
  else (s1, [UartEv.armRead])

/-- Session state: the stored descriptor `transport_data_source.fd`. -/
structure SessionState where
  fd : Int
  deriving DecidableEq, Repr

/-- `btstack_uart_posix_close_new`: remove the data source from the run
loop, close the device, invalidate the stored descriptor, return 0. -/
def btstack_uart_posix_close_new (_s : SessionState) : SessionState × Int :=
  ({ fd := -1 }, 0)

/-- Complete driver state: descriptor plus the block and SLIP engines. -/
structure UartState (δ : Type) where
  fd : Int
  blk : BlockState
  tx : SlipTxState
  rx : SlipRxState δ
  deriving DecidableEq, Repr

/-- A readiness dispatch together with its environment inputs (syscall
result, delivered bytes, run-loop time). -/
inductive DispatchInput where
  | read (now : Nat) (bytes_read : Int) (data : List Nat)
  | write (bytes_written : Int)
  deriving DecidableEq, Repr

/-- `hci_uart_posix_process`: discard the event on a closed descriptor,
otherwise route it to the SLIP engine when the corresponding SLIP direction
is active and to the block engine otherwise. -/
def hci_uart_posix_process {δ : Type} (decStep : δ → Nat → δ)
    (decSize : δ → Nat) (s : UartState δ) :
    DispatchInput → UartState δ × List UartEv
  | DispatchInput.read now n data =>
    if s.fd < 0 then (s, [])
    else if s.rx.receive_active then
      let p := btstack_uart_slip_posix_process_read decStep decSize now n
        data s.rx
      ({ s with rx := p.1 }, p.2)
    else
      let p := btstack_uart_block_posix_process_read s.blk n
      ({ s with blk := p.1 }, p.2)
  | DispatchInput.write n =>
    if s.fd < 0 then (s, [])
    else if s.tx.write_active then
      let p := btstack_uart_slip_posix_process_write s.tx n
      ({ s with tx := p.1 }, p.2)
    else
      let p := btstack_uart_block_posix_process_write s.blk n
      ({ s with blk := p.1 }, p.2)

/-- Fold a sequence of write-readiness dispatches through the dispatcher. -/
def runWriteDispatches {δ : Type} (decStep : δ → Nat → δ)
    (decSize : δ → Nat) : UartState δ → List Int → UartState δ × List UartEv
  | s, [] => (s, [])
  | s, r :: rs =>
    let p := hci_uart_posix_process decStep decSize s (DispatchInput.write r)
    let q := runWriteDispatches decStep decSize p.1 rs
    (q.1, p.2 ++ q.2)

/-- Number of chunk submissions in an event trace. -/
def countChunkSubs (evs : List UartEv) : Nat :=
  evs.countP fun ev =>
    match ev with
    | UartEv.chunkSubmitted _ => true
    | _ => false

/-- The scratch-buffer cursor invariant of the frame-receive state:
`position ≤ length ≤ SLIP_RECEIVE_BUFFER_SIZE`. -/
def SlipRxInv {δ : Type} (s : SlipRxState δ) : Prop :=
  s.receive_pos ≤ s.receive_len ∧
    s.receive_len ≤ SLIP_RECEIVE_BUFFER_SIZE

/-- The reset discipline of the frame-receive cursors: a fully drained
buffer has both cursors at zero. -/
def SlipRxReset {δ : Type} (s : SlipRxState δ) : Prop :=
  s.receive_pos = s.receive_len → s.receive_pos = 0 ∧ s.receive_len = 0

instance {δ : Type} (s : SlipRxState δ) : Decidable (SlipRxInv s) := by
  unfold SlipRxInv; infer_instance

instance {δ : Type} (s : SlipRxState δ) : Decidable (SlipRxReset s) := by
  unfold SlipRxReset; infer_instance

/-- A demonstration decoder instance for concrete runs: state is (bytes fed
since the last delimiter, frame size reported); byte 192 closes a frame of
the accumulated size. -/
def demoStep : Nat × Nat → Nat → Nat × Nat :=
  fun d b => if b = 192 then (0, d.1) else (d.1 + 1, 0)

/-- Frame-size query of the demonstration decoder. -/
def demoSize : Nat × Nat → Nat := fun d => d.2

/-! ## Theorems -/

/-- The decode loop never moves the cursor backwards nor past `len`. -/
theorem processLoopFuel_pos_le {δ : Type} (decStep : δ → Nat → δ)
    (decSize : δ → Nat) (buf : List Nat) (len : Nat) :
    ∀ (fuel pos : Nat) (d : δ), pos ≤ len →
      pos ≤ (processLoopFuel decStep decSize buf len fuel pos d).1 ∧
        (processLoopFuel decStep decSize buf len fuel pos d).1 ≤ len := by
  intro fuel
  induction fuel with
  | zero => intro pos d h; exact ⟨le_refl _, h⟩
  | succ fuel ih =>
    intro pos d h
    simp only [processLoopFuel]
    split
    · split
      · have h2 := ih (pos + 1) (decStep d (buf.getD pos 0)) (by omega)
        exact ⟨by omega, h2.2⟩
      · exact ⟨by omega, by omega⟩
    · exact ⟨le_refl _, h⟩

/-- The buffered-byte processor emits exactly the frame-received callback
when it reports a frame, and nothing at all otherwise. -/
theorem process_buffer_events {δ : Type} (decStep : δ → Nat → δ)
    (decSize : δ → Nat) (s : SlipRxState δ) :
    (btstack_uart_slip_posix_process_buffer decStep decSize s).2.1 =
      (if (btstack_uart_slip_posix_process_buffer decStep decSize s).2.2 ≠ 0
        then [UartEv.frameReceived
          (btstack_uart_slip_posix_process_buffer decStep decSize s).2.2]
        else []) := by
  by_cases h : (processLoop decStep decSize s.receive_buffer s.receive_len
      s.receive_pos s.dec).2.2 = 0 <;>
    simp [btstack_uart_slip_posix_process_buffer, h]

/-- When the buffered-byte processor reports a frame it fires exactly the
frame-received callback, clears the receive-active flag, leaves the scratch
buffer contents alone, and either fully drained the buffer (cursors reset
to zero) or left the unconsumed remainder in place (`pos < len`, `len`
unchanged). -/
theorem process_buffer_frame_core {δ : Type} (decStep : δ → Nat → δ)
    (decSize : δ → Nat) (s : SlipRxState δ)
    (hinv : s.receive_pos ≤ s.receive_len)
    (hfs : (btstack_uart_slip_posix_process_buffer decStep decSize s).2.2 ≠
      0) :
    (btstack_uart_slip_posix_process_buffer decStep decSize s).2.1 =
        [UartEv.frameReceived
          (btstack_uart_slip_posix_process_buffer decStep decSize s).2.2] ∧
      (btstack_uart_slip_posix_process_buffer decStep decSize
          s).1.receive_active = false ∧
      (btstack_uart_slip_posix_process_buffer decStep decSize
          s).1.receive_buffer = s.receive_buffer ∧
      (((btstack_uart_slip_posix_process_buffer decStep decSize
            s).1.receive_pos = 0 ∧
          (btstack_uart_slip_posix_process_buffer decStep decSize
            s).1.receive_len = 0) ∨
        ((btstack_uart_slip_posix_process_buffer decStep decSize
              s).1.receive_pos <
            (btstack_uart_slip_posix_process_buffer decStep decSize
              s).1.receive_len ∧
          (btstack_uart_slip_posix_process_buffer decStep decSize
            s).1.receive_len = s.receive_len)) := by
  have hle : s.receive_pos ≤ (processLoop decStep decSize s.receive_buffer
        s.receive_len s.receive_pos s.dec).1 ∧
      (processLoop decStep decSize s.receive_buffer s.receive_len
        s.receive_pos s.dec).1 ≤ s.receive_len :=
    processLoopFuel_pos_le decStep decSize s.receive_buffer s.receive_len
      (s.receive_len - s.receive_pos) s.receive_pos s.dec hinv
  by_cases h : (processLoop decStep decSize s.receive_buffer s.receive_len
      s.receive_pos s.dec).2.2 = 0
  · exact absurd (by simp [btstack_uart_slip_posix_process_buffer, h]) hfs
  · by_cases hpe : (processLoop decStep decSize s.receive_buffer
        s.receive_len s.receive_pos s.dec).1 = s.receive_len <;>
      by_cases ht : s.receive_track_start = false <;>
      simp [btstack_uart_slip_posix_process_buffer, h, hpe, ht] <;>
      omega

/-- Claim C9: calling `close` on an already-closed session (stored
descriptor already -1) returns success (0) and leaves the stored descriptor
at -1, a no-op on the session state. -/
theorem close_idempotent (s : SessionState) (h : s.fd = -1) :
    btstack_uart_posix_close_new s = (s, 0) := by
  cases s with
  | mk fd =>
    cases h
    rfl

theorem close_idempotent_witness :
    ({ fd := -1 } : SessionState).fd = -1 ∧
      btstack_uart_posix_close_new { fd := -1 } =
        (({ fd := -1 } : SessionState), 0) :=
  ⟨rfl, close_idempotent { fd := -1 } rfl⟩

/-- Counterexample to claim C3 as stated: at a concrete state in which the
decoder reports a frame of size 7 with bytes still unconsumed, the frame
pipeline invokes the frame-received callback WITHOUT disarming read
interest first — no disarm call occurs anywhere in its event trace. -/
theorem frame_complete_no_disarm_cex :
    (btstack_uart_slip_posix_process_buffer (fun d _ => d + 1)
        (fun d => if d = 1 then 7 else 0)
        ⟨[10, 20], 0, 2, false, 0, true, 0⟩).2.2 = 7 ∧
      (btstack_uart_slip_posix_process_buffer (fun d _ => d + 1)
          (fun d => if d = 1 then 7 else 0)
          ⟨[10, 20], 0, 2, false, 0, true, 0⟩).2.1 =
        [UartEv.frameReceived 7] ∧
      UartEv.disarmRead ∉
        (btstack_uart_slip_posix_process_buffer (fun d _ => d + 1)
            (fun d => if d = 1 then 7 else 0)
            ⟨[10, 20], 0, 2, false, 0, true, 0⟩).2.1 := by
  decide

/-- Claim C3 (amended): whenever the SLIP decoder reports a frame size
greater than zero during buffer processing, the pipeline clears the
receive-active flag and invokes the frame-received callback with that frame
size — it does not touch read interest (no disarm call occurs; the
read-interest leak is cleaned up only by a later dispatch into the block
engine) — and any bytes not yet fed to the decoder remain in the scratch
buffer (`position < length`, buffer contents unchanged) for the next
`receive_frame` call to drain first. -/
theorem frame_complete_clears_active_keeps_remainder {δ : Type}
    (decStep : δ → Nat → δ) (decSize : δ → Nat) (s : SlipRxState δ)
    (hinv : s.receive_pos ≤ s.receive_len)
    (hfs : (btstack_uart_slip_posix_process_buffer decStep decSize s).2.2 ≠
      0) :
    (btstack_uart_slip_posix_process_buffer decStep decSize s).2.1 =
        [UartEv.frameReceived
          (btstack_uart_slip_posix_process_buffer decStep decSize s).2.2] ∧
      UartEv.disarmRead ∉
        (btstack_uart_slip_posix_process_buffer decStep decSize s).2.1 ∧
      UartEv.armRead ∉
        (btstack_uart_slip_posix_process_buffer decStep decSize s).2.1 ∧
      (btstack_uart_slip_posix_process_buffer decStep decSize
          s).1.receive_active = false ∧
      (btstack_uart_slip_posix_process_buffer decStep decSize
          s).1.receive_buffer = s.receive_buffer ∧
      (((btstack_uart_slip_posix_process_buffer decStep decSize
            s).1.receive_pos = 0 ∧
          (btstack_uart_slip_posix_process_buffer decStep decSize
            s).1.receive_len = 0) ∨
        ((btstack_uart_slip_posix_process_buffer decStep decSize
              s).1.receive_pos <
            (btstack_uart_slip_posix_process_buffer decStep decSize
              s).1.receive_len ∧
          (btstack_uart_slip_posix_process_buffer decStep decSize
            s).1.receive_len = s.receive_len)) := by
  have h := process_buffer_frame_core decStep decSize s hinv hfs
  refine ⟨h.1, ?_, ?_, h.2.1, h.2.2.1, h.2.2.2⟩
  · rw [h.1]; simp
  · rw [h.1]; simp

theorem frame_complete_clears_active_keeps_remainder_witness :
    (0 : Nat) ≤ 3 ∧
      (btstack_uart_slip_posix_process_buffer (fun d _ => d + 1)
          (fun d => if d = 1 then 5 else 0)
          ⟨[30, 40, 50], 0, 3, true, 0, true, 0⟩).2.1 =
        [UartEv.frameReceived 5] := by
  have h := frame_complete_clears_active_keeps_remainder
    (fun d _ => d + 1) (fun d => if d = 1 then 5 else 0)
    ⟨[30, 40, 50], 0, 3, true, 0, true, 0⟩ (by decide) (by decide)
  refine ⟨by decide, ?_⟩
  rw [h.1]
  decide

/-- Counterexample to claim C6 as stated: in frame (SLIP) mode a
zero-length write result is NOT logged as an error and the operation is NOT
abandoned — the dispatch re-arms write interest for retry and the pending
chunk length is unchanged. -/
theorem slip_write_zero_result_cex :
    (btstack_uart_slip_posix_process_write
        ⟨5, 0, true, [1, 2, 3, 4, 5], [9, 9]⟩ 0).2 = [UartEv.armWrite] ∧
      UartEv.logError ∉
        (btstack_uart_slip_posix_process_write
            ⟨5, 0, true, [1, 2, 3, 4, 5], [9, 9]⟩ 0).2 ∧
      (btstack_uart_slip_posix_process_write
          ⟨5, 0, true, [1, 2, 3, 4, 5], [9, 9]⟩ 0).1.write_bytes_len = 5 := by
  decide

/-- Claim C6 (amended): only the BLOCK engine treats a zero-length syscall
result as an error: it logs the error and returns with the operation state
unadvanced, no interest re-armed and no completion callback.  The frame
(SLIP) engine does not: a zero-length write result re-arms write interest
and leaves the chunk pending (a retry), and a zero-length read result is
processed as an empty buffer (cursors reset, no error, no abandonment). -/
theorem zero_length_result_handling :
    (∀ s : BlockState, s.write_bytes_len ≠ 0 →
        btstack_uart_block_posix_process_write s 0 = (s, [UartEv.logError])) ∧
      (∀ s : BlockState, s.read_bytes_len ≠ 0 →
        btstack_uart_block_posix_process_read s 0 =
          (s, [UartEv.sysRead 0, UartEv.logError])) ∧
      (∀ s : SlipTxState, s.write_bytes_len ≠ 0 →
        btstack_uart_slip_posix_process_write s 0 = (s, [UartEv.armWrite])) ∧
      (∀ (δ : Type) (decStep : δ → Nat → δ) (decSize : δ → Nat) (now : Nat)
          (s : SlipRxState δ),
        (btstack_uart_slip_posix_process_read decStep decSize now 0 [] s).2 =
            [UartEv.sysRead 0] ∧
          (btstack_uart_slip_posix_process_read decStep decSize now 0 []
              s).1.receive_pos = 0 ∧
          (btstack_uart_slip_posix_process_read decStep decSize now 0 []
              s).1.receive_len = 0) := by
  refine ⟨?_, ?_, ?_, ?_⟩
  · intro s h
    unfold btstack_uart_block_posix_process_write
    rw [if_neg h, if_pos rfl]
  · intro s h
    unfold btstack_uart_block_posix_process_read
    rw [if_neg h]
    simp
  · intro s h
    unfold btstack_uart_slip_posix_process_write
    rw [if_neg h, if_neg (show ¬((0 : Int) < 0) by omega)]
    simp [h]
  · intro δ decStep decSize now s
    by_cases ht : s.receive_track_start <;>
      simp [btstack_uart_slip_posix_process_read,
        btstack_uart_slip_posix_process_buffer, processLoop,
        processLoopFuel, ht]

theorem zero_length_result_handling_witness :
    btstack_uart_block_posix_process_write ⟨3, 0, 0, 0⟩ 0 =
        ((⟨3, 0, 0, 0⟩ : BlockState), [UartEv.logError]) ∧
      btstack_uart_block_posix_process_read ⟨0, 0, 4, 0⟩ 0 =
        ((⟨0, 0, 4, 0⟩ : BlockState),
          [UartEv.sysRead 0, UartEv.logError]) ∧
      btstack_uart_slip_posix_process_write ⟨2, 0, true, [7, 7], [9]⟩ 0 =
        ((⟨2, 0, true, [7, 7], [9]⟩ : SlipTxState), [UartEv.armWrite]) :=
  ⟨zero_length_result_handling.1 ⟨3, 0, 0, 0⟩ (by decide),
    zero_length_result_handling.2.1 ⟨0, 0, 4, 0⟩ (by decide),
    zero_length_result_handling.2.2.1 ⟨2, 0, true, [7, 7], [9]⟩ (by decide)⟩

/-- Per-dispatch event logs of a block send driven by positive partial
writes summing to the outstanding length: every dispatch but the last
re-arms write interest and emits nothing else; the last one disarms write
interest and then fires the block-sent callback; afterwards nothing remains
outstanding. -/
theorem runBlockWrites_split_writes (init : List Nat) :
    ∀ (s : BlockState) (rlast : Nat), (∀ r ∈ init, 0 < r) → 0 < rlast →
      s.write_bytes_len = ((init.sum + rlast : Nat) : Int) →
      (runBlockWrites s (init ++ [rlast])).2 =
          init.map (fun _ => [UartEv.armWrite]) ++
            [[UartEv.disarmWrite, UartEv.blockSent]] ∧
        (runBlockWrites s (init ++ [rlast])).1.write_bytes_len = 0 := by
  induction init with
  | nil =>
    intro s rlast _ hlast hlen
    have hlen' : s.write_bytes_len = ((rlast : Nat) : Int) := by
      simpa using hlen
    have h0 : s.write_bytes_len ≠ 0 := by
      rw [hlen']; exact_mod_cast hlast.ne'
    have h1 : ((rlast : Nat) : Int) ≠ 0 := by exact_mod_cast hlast.ne'
    have h2 : ¬ (((rlast : Nat) : Int) < 0) :=
      not_lt.mpr (Int.natCast_nonneg rlast)
    have h3 : s.write_bytes_len - ((rlast : Nat) : Int) = 0 := by
      rw [hlen']; omega
    simp only [List.nil_append, runBlockWrites,
      btstack_uart_block_posix_process_write, if_neg h0, if_neg h1,
      if_neg h2, h3]
    simp
  | cons r init ih =>
    intro s rlast hpos hlast hlen
    have hr : 0 < r := hpos r (List.mem_cons_self r init)
    have hpos' : ∀ x ∈ init, 0 < x := fun x hx =>
      hpos x (List.mem_cons_of_mem r hx)
    have h0 : s.write_bytes_len ≠ 0 := by
      rw [hlen]
      exact_mod_cast (by simp [List.sum_cons]; omega :
        ((r :: init).sum + rlast : Nat) ≠ 0)
    have h1 : ((r : Nat) : Int) ≠ 0 := by exact_mod_cast hr.ne'
    have h2 : ¬ (((r : Nat) : Int) < 0) := not_lt.mpr (Int.natCast_nonneg r)
    have h3 : s.write_bytes_len - ((r : Nat) : Int) =
        ((init.sum + rlast : Nat) : Int) := by
      rw [hlen]; simp [List.sum_cons]; omega
    have h4 : s.write_bytes_len - ((r : Nat) : Int) ≠ 0 := by
      rw [h3]; exact_mod_cast (by omega : (init.sum + rlast : Nat) ≠ 0)
    have hstep : btstack_uart_block_posix_process_write s ((r : Nat) : Int) =
        ({ s with write_bytes_off := s.write_bytes_off + ((r : Nat) : Int).toNat,
                  write_bytes_len := s.write_bytes_len - ((r : Nat) : Int) },
          [UartEv.armWrite]) := by
      unfold btstack_uart_block_posix_process_write
      rw [if_neg h0, if_neg h1, if_neg h2, if_pos h4]
    have ihs := ih { s with
        write_bytes_off := s.write_bytes_off + ((r : Nat) : Int).toNat,
        write_bytes_len := s.write_bytes_len - ((r : Nat) : Int) }
      rlast hpos' hlast (by simpa using h3)
    simp only [List.cons_append, runBlockWrites, hstep, List.map_cons]
    exact ⟨congrArg (fun t => [UartEv.armWrite] :: t) ihs.1, ihs.2⟩

/-- Claim C1: a block send of length L completed across N write-readiness
dispatches whose positive partial-write results sum to L fires the
block-sent callback exactly once, only on the dispatch in which the
remaining length reaches zero (every earlier dispatch merely re-arms write
interest), and write interest is disarmed immediately before the callback
is invoked. -/
theorem block_send_callback_once (s0 : BlockState) (L : Nat)
    (init : List Nat) (rlast : Nat) (hpos : ∀ r ∈ init, 0 < r)
    (hlast : 0 < rlast) (hsum : init.sum + rlast = L) :
    (runBlockWrites (btstack_uart_posix_send_block s0 L).1
          (init ++ [rlast])).2 =
        init.map (fun _ => [UartEv.armWrite]) ++
          [[UartEv.disarmWrite, UartEv.blockSent]] ∧
      (runBlockWrites (btstack_uart_posix_send_block s0 L).1
          (init ++ [rlast])).1.write_bytes_len = 0 :=
  runBlockWrites_split_writes init _ rlast hpos hlast
    (by simp [btstack_uart_posix_send_block, hsum])

theorem block_send_callback_once_witness :
    (∀ r ∈ [2, 2], 0 < r) ∧ 0 < 1 ∧ [2, 2].sum + 1 = 5 ∧
      (runBlockWrites
          (btstack_uart_posix_send_block ⟨0, 0, 0, 0⟩ 5).1 [2, 2, 1]).2 =
        [[UartEv.armWrite], [UartEv.armWrite],
          [UartEv.disarmWrite, UartEv.blockSent]] := by
  have h := block_send_callback_once ⟨0, 0, 0, 0⟩ 5 [2, 2] 1 (by decide)
    (by decide) (by decide)
  refine ⟨by decide, by decide, by decide, ?_⟩
  have h1 := h.1
  simpa using h1

/-- Per-dispatch event logs of a block receive driven by positive partial
reads summing to the outstanding length: every dispatch but the last only
performs the read syscall (interest stays armed, no callback); the last one
disarms read interest and then fires the block-received callback;
afterwards nothing remains outstanding. -/
theorem runBlockReads_split_reads (init : List Nat) :
    ∀ (s : BlockState) (rlast : Nat), (∀ r ∈ init, 0 < r) → 0 < rlast →
      s.read_bytes_len = init.sum + rlast →
      (runBlockReads s (init ++ [rlast])).2 =
          init.map (fun r => [UartEv.sysRead ((r : Nat) : Int)]) ++
            [[UartEv.sysRead ((rlast : Nat) : Int), UartEv.disarmRead,
              UartEv.blockReceived]] ∧
        (runBlockReads s (init ++ [rlast])).1.read_bytes_len = 0 := by
  induction init with
  | nil =>
    intro s rlast _ hlast hlen
    have hlen' : s.read_bytes_len = rlast := by simpa using hlen
    have h0 : ¬ (s.read_bytes_len = 0) := by omega
    have h1 : ((rlast : Nat) : Int) ≠ 0 := by exact_mod_cast hlast.ne'
    have h2 : ¬ (((rlast : Nat) : Int) < 0) :=
      not_lt.mpr (Int.natCast_nonneg rlast)
    have h3 : ¬ (0 < s.read_bytes_len - ((rlast : Nat) : Int).toNat) := by
      simp only [Int.toNat_natCast]; omega
    simp only [List.nil_append, runBlockReads,
      btstack_uart_block_posix_process_read, if_neg h1, if_neg h2,
      if_neg h3]
    simp only [Int.toNat_natCast, h0]
    constructor
    · rfl
    · simp [hlen']
  | cons r init ih =>
    intro s rlast hpos hlast hlen
    have hr : 0 < r := hpos r (List.mem_cons_self r init)
    have hpos' : ∀ x ∈ init, 0 < x := fun x hx =>
      hpos x (List.mem_cons_of_mem r hx)
    have hsum : s.read_bytes_len = r + (init.sum + rlast) := by
      rw [hlen]; simp [List.sum_cons]; omega
    have h0 : ¬ (s.read_bytes_len = 0) := by omega
    have h1 : ((r : Nat) : Int) ≠ 0 := by exact_mod_cast hr.ne'
    have h2 : ¬ (((r : Nat) : Int) < 0) := not_lt.mpr (Int.natCast_nonneg r)
    have h3 : 0 < s.read_bytes_len - ((r : Nat) : Int).toNat := by
      simp only [Int.toNat_natCast]; omega
    have hstep : btstack_uart_block_posix_process_read s ((r : Nat) : Int) =
        ({ s with read_bytes_len := s.read_bytes_len - ((r : Nat) : Int).toNat,
                  read_bytes_off := s.read_bytes_off + ((r : Nat) : Int).toNat },
          [UartEv.sysRead ((r : Nat) : Int)]) := by
      unfold btstack_uart_block_posix_process_read
      rw [if_neg h1, if_neg h2, if_pos h3]
      simp [h0]
    have ihs := ih { s with
        read_bytes_len := s.read_bytes_len - ((r : Nat) : Int).toNat,
        read_bytes_off := s.read_bytes_off + ((r : Nat) : Int).toNat }
      rlast hpos' hlast (by simp only [Int.toNat_natCast]; omega)
    simp only [List.cons_append, runBlockReads, hstep, List.map_cons]
    exact ⟨congrArg (fun t => [UartEv.sysRead ((r : Nat) : Int)] :: t) ihs.1,
      ihs.2⟩

/-- Claim C2: a block receive of length L fires the block-received callback
exactly once, only on the read-readiness dispatch in which cumulative bytes
read reach L (earlier dispatches with the remaining length still positive
emit no callback and leave interest armed), with read interest disarmed
immediately before the callback. -/
theorem block_receive_callback_once (s0 : BlockState) (L : Nat)
    (init : List Nat) (rlast : Nat) (hpos : ∀ r ∈ init, 0 < r)
    (hlast : 0 < rlast) (hsum : init.sum + rlast = L) :
    (runBlockReads (btstack_uart_posix_receive_block s0 L).1
          (init ++ [rlast])).2 =
        init.map (fun r => [UartEv.sysRead ((r : Nat) : Int)]) ++
          [[UartEv.sysRead ((rlast : Nat) : Int), UartEv.disarmRead,
            UartEv.blockReceived]] ∧
      (runBlockReads (btstack_uart_posix_receive_block s0 L).1
          (init ++ [rlast])).1.read_bytes_len = 0 :=
  runBlockReads_split_reads init _ rlast hpos hlast
    (by simp [btstack_uart_posix_receive_block, hsum])

theorem block_receive_callback_once_witness :
    (∀ r ∈ [3], 0 < r) ∧ 0 < 7 ∧ [3].sum + 7 = 10 ∧
      (runBlockReads
          (btstack_uart_posix_receive_block ⟨0, 0, 0, 0⟩ 10).1 [3, 7]).2 =
        [[UartEv.sysRead 3],
          [UartEv.sysRead 7, UartEv.disarmRead, UartEv.blockReceived]] := by
  have h := block_receive_callback_once ⟨0, 0, 0, 0⟩ 10 [3] 7 (by decide)
    (by decide) (by decide)
  refine ⟨by decide, by decide, by decide, ?_⟩
  have h1 := h.1
  simpa using h1

/-- The frame size reported by the buffered-byte processor is exactly the
one reported by its decode loop. -/
theorem process_buffer_frame_size {δ : Type} (decStep : δ → Nat → δ)
    (decSize : δ → Nat) (s : SlipRxState δ) :
    (btstack_uart_slip_posix_process_buffer decStep decSize s).2.2 =
      (processLoop decStep decSize s.receive_buffer s.receive_len
        s.receive_pos s.dec).2.2 := by
  by_cases h : (processLoop decStep decSize s.receive_buffer s.receive_len
      s.receive_pos s.dec).2.2 = 0 <;>
    simp [btstack_uart_slip_posix_process_buffer, h]

/-- Claim C4: if `receive_frame` is called while buffered bytes from a
prior physical read are unprocessed (`position < length`) and feeding them
to the decoder completes a frame, the frame-received callback fires
synchronously within the `receive_frame` call and read interest is not
armed by that call; read interest is armed exactly when no complete frame
results from the buffered bytes. -/
theorem receive_frame_buffered_sync_delivery {δ : Type}
    (decStep : δ → Nat → δ) (decSize : δ → Nat) (decInit : δ)
    (s : SlipRxState δ) (hbuf : s.receive_pos < s.receive_len) :
    ((btstack_uart_slip_posix_process_buffer decStep decSize
          { s with receive_active := true, receive_track_start := true,
                   dec := decInit }).2.2 ≠ 0 →
      (btstack_uart_slip_posix_receive_frame decStep decSize decInit s).2 =
          [UartEv.frameReceived
            (btstack_uart_slip_posix_process_buffer decStep decSize
              { s with receive_active := true, receive_track_start := true,
                       dec := decInit }).2.2] ∧
        UartEv.armRead ∉
          (btstack_uart_slip_posix_receive_frame decStep decSize decInit
            s).2) ∧
    ((btstack_uart_slip_posix_process_buffer decStep decSize
          { s with receive_active := true, receive_track_start := true,
                   dec := decInit }).2.2 = 0 →
      (btstack_uart_slip_posix_receive_frame decStep decSize decInit s).2 =
        [UartEv.armRead]) := by
  have hlen0 : ¬ (s.receive_len = 0) := by omega
  have hlen1 : ({ s with receive_active := true,
                         receive_track_start := true, dec := decInit } :
        SlipRxState δ).receive_len ≠ 0 := by simpa using hlen0
  constructor
  · intro hfs
    have hcore := process_buffer_frame_core decStep decSize
      { s with receive_active := true, receive_track_start := true,
               dec := decInit }
      (by simpa using le_of_lt hbuf) hfs
    have hR : btstack_uart_slip_posix_receive_frame decStep decSize decInit
        s =
        ((btstack_uart_slip_posix_process_buffer decStep decSize
            { s with receive_active := true, receive_track_start := true,
                     dec := decInit }).1,
          (btstack_uart_slip_posix_process_buffer decStep decSize
            { s with receive_active := true, receive_track_start := true,
                     dec := decInit }).2.1) := by
      unfold btstack_uart_slip_posix_receive_frame
      rw [if_pos hlen1, if_pos hfs]
    rw [hR, hcore.1]
    exact ⟨rfl, by simp⟩
  · intro hfs
    have hR : btstack_uart_slip_posix_receive_frame decStep decSize decInit
        s =
        ((btstack_uart_slip_posix_process_buffer decStep decSize
            { s with receive_active := true, receive_track_start := true,
                     dec := decInit }).1,
          (btstack_uart_slip_posix_process_buffer decStep decSize
              { s with receive_active := true, receive_track_start := true,
                       dec := decInit }).2.1 ++ [UartEv.armRead]) := by
      unfold btstack_uart_slip_posix_receive_frame
      rw [if_pos hlen1, if_neg (by simp [hfs])]
    rw [hR, process_buffer_events, if_neg (by simp [hfs])]
    rfl

theorem receive_frame_buffered_sync_delivery_witness :
    (0 : Nat) < 2 ∧
      (btstack_uart_slip_posix_receive_frame demoStep demoSize (0, 0)
          ⟨[1, 192, 9], 0, 2, false, 0, false, (0, 0)⟩).2 =
        [UartEv.frameReceived 1] := by
  have h := receive_frame_buffered_sync_delivery demoStep demoSize (0, 0)
    ⟨[1, 192, 9], 0, 2, false, 0, false, (0, 0)⟩ (by decide)
  refine ⟨by decide, ?_⟩
  have h1 := (h.1 (by decide)).1
  rw [h1]
  decide

/-- Claim C5: when a single physical read delivers the encodings of two
complete frames, the `receive_frame` call in effect when that read is
dispatched arms the read, the dispatch delivers frame 1 via the
frame-received callback, and the next `receive_frame` call delivers frame 2
via the callback purely by draining the buffered remainder — its event
trace contains no read syscall and no read arming. -/
theorem two_frames_one_read {δ : Type} (decStep : δ → Nat → δ)
    (decSize : δ → Nat) (d1 d2 : δ) (s0 : SlipRxState δ) (bs : List Nat)
    (now : Nat) (p1 f1 : Nat) (dA : δ)
    (hlen0 : s0.receive_len = 0)
    (h1 : processLoop decStep decSize bs bs.length 0 d1 = (p1, dA, f1))
    (hf1 : f1 ≠ 0) (hp1 : p1 < bs.length)
    (hf2 : (processLoop decStep decSize bs bs.length p1 d2).2.2 ≠ 0) :
    (btstack_uart_slip_posix_receive_frame decStep decSize d1 s0).2 =
        [UartEv.armRead] ∧
      (btstack_uart_slip_posix_process_read decStep decSize now
          ((bs.length : Nat) : Int) bs
          (btstack_uart_slip_posix_receive_frame decStep decSize d1
            s0).1).2 =
        [UartEv.sysRead ((bs.length : Nat) : Int),
          UartEv.frameReceived f1] ∧
      (btstack_uart_slip_posix_receive_frame decStep decSize d2
          (btstack_uart_slip_posix_process_read decStep decSize now
              ((bs.length : Nat) : Int) bs
              (btstack_uart_slip_posix_receive_frame decStep decSize d1
                s0).1).1).2 =
        [UartEv.frameReceived
          (processLoop decStep decSize bs bs.length p1 d2).2.2] ∧
      (∀ n, UartEv.sysRead n ∉
        (btstack_uart_slip_posix_receive_frame decStep decSize d2
            (btstack_uart_slip_posix_process_read decStep decSize now
                ((bs.length : Nat) : Int) bs
                (btstack_uart_slip_posix_receive_frame decStep decSize d1
                  s0).1).1).2) ∧
      UartEv.armRead ∉
        (btstack_uart_slip_posix_receive_frame decStep decSize d2
            (btstack_uart_slip_posix_process_read decStep decSize now
                ((bs.length : Nat) : Int) bs
                (btstack_uart_slip_posix_receive_frame decStep decSize d1
                  s0).1).1).2 := by
  have hA : btstack_uart_slip_posix_receive_frame decStep decSize d1 s0 =
      ({ s0 with receive_active := true, receive_track_start := true,
                 dec := d1 }, [UartEv.armRead]) := by
    unfold btstack_uart_slip_posix_receive_frame
    rw [if_neg (by simp [hlen0])]
  have hA1 : (btstack_uart_slip_posix_receive_frame decStep decSize d1
      s0).1 =
      { s0 with receive_active := true, receive_track_start := true,
                dec := d1 } := by rw [hA]
  have hnn : ¬ (((bs.length : Nat) : Int) < 0) := by omega
  have hpb : btstack_uart_slip_posix_process_buffer decStep decSize
      (⟨bs, 0, bs.length, false, now, true, d1⟩ : SlipRxState δ) =
      ((⟨bs, p1, bs.length, false, 0, false, dA⟩ : SlipRxState δ),
        [UartEv.frameReceived f1], f1) := by
    simp only [btstack_uart_slip_posix_process_buffer]
    rw [h1]
    simp [show ¬ (p1 = bs.length) by omega, hf1]
  have hB : btstack_uart_slip_posix_process_read decStep decSize now
      ((bs.length : Nat) : Int) bs
      { s0 with receive_active := true, receive_track_start := true,
                dec := d1 } =
      ((⟨bs, p1, bs.length, false, 0, false, dA⟩ : SlipRxState δ),
        [UartEv.sysRead ((bs.length : Nat) : Int),
          UartEv.frameReceived f1]) := by
    simp only [btstack_uart_slip_posix_process_read]
    simp only [Int.toNat_natCast]
    simp [hnn, hpb]
  have hB1 : (btstack_uart_slip_posix_process_read decStep decSize now
      ((bs.length : Nat) : Int) bs
      { s0 with receive_active := true, receive_track_start := true,
                dec := d1 }).1 =
      (⟨bs, p1, bs.length, false, 0, false, dA⟩ : SlipRxState δ) := by
    rw [hB]
  have hfsC : (btstack_uart_slip_posix_process_buffer decStep decSize
      (⟨bs, p1, bs.length, true, 0, true, d2⟩ : SlipRxState δ)).2.2 ≠ 0 := by
    rw [process_buffer_frame_size]
    simpa using hf2
  have hcore := process_buffer_frame_core decStep decSize
    (⟨bs, p1, bs.length, true, 0, true, d2⟩ : SlipRxState δ)
    (by simpa using le_of_lt hp1) hfsC
  have hC : (btstack_uart_slip_posix_receive_frame decStep decSize d2
      (⟨bs, p1, bs.length, false, 0, false, dA⟩ : SlipRxState δ)).2 =
      [UartEv.frameReceived
        (processLoop decStep decSize bs bs.length p1 d2).2.2] := by
    simp only [btstack_uart_slip_posix_receive_frame]
    rw [if_pos (show bs.length ≠ 0 by omega :
      (⟨bs, p1, bs.length, true, 0, true, d2⟩ :
        SlipRxState δ).receive_len ≠ 0)]
    rw [if_pos hfsC]
    rw [show ((btstack_uart_slip_posix_process_buffer decStep decSize
        (⟨bs, p1, bs.length, true, 0, true, d2⟩ : SlipRxState δ)).1,
        (btstack_uart_slip_posix_process_buffer decStep decSize
          (⟨bs, p1, bs.length, true, 0, true, d2⟩ : SlipRxState δ)).2.1).2 =
      (btstack_uart_slip_posix_process_buffer decStep decSize
        (⟨bs, p1, bs.length, true, 0, true, d2⟩ : SlipRxState δ)).2.1
      from rfl]
    rw [hcore.1, process_buffer_frame_size]
  refine ⟨by rw [hA], ?_, ?_, ?_, ?_⟩
  · rw [hA1, hB]
  · rw [hA1, hB1, hC]
  · intro n
    rw [hA1, hB1, hC]
    simp
  · rw [hA1, hB1, hC]
    simp

theorem two_frames_one_read_witness :
    (btstack_uart_slip_posix_receive_frame demoStep demoSize (0, 0)
        (btstack_uart_slip_posix_process_read demoStep demoSize 0
            (([1, 2, 192, 3, 4, 192].length : Nat) : Int)
            [1, 2, 192, 3, 4, 192]
            (btstack_uart_slip_posix_receive_frame demoStep demoSize (0, 0)
              ⟨[], 0, 0, false, 0, false, (0, 0)⟩).1).1).2 =
      [UartEv.frameReceived 2] := by
  have h := two_frames_one_read demoStep demoSize (0, 0) (0, 0)
    ⟨[], 0, 0, false, 0, false, (0, 0)⟩ [1, 2, 192, 3, 4, 192] 0 3 2 (0, 2)
    rfl (by decide) (by decide) (by decide) (by decide)
  have h3 := h.2.2.1
  rw [h3]
  decide

/-- The buffered-byte processor preserves the cursor invariant and
establishes the reset discipline. -/
theorem process_buffer_preserves_inv {δ : Type} (decStep : δ → Nat → δ)
    (decSize : δ → Nat) (s : SlipRxState δ) (hinv : SlipRxInv s) :
    SlipRxInv (btstack_uart_slip_posix_process_buffer decStep decSize
        s).1 ∧
      SlipRxReset (btstack_uart_slip_posix_process_buffer decStep decSize
        s).1 := by
  obtain ⟨hi1, hi2⟩ := hinv
  have hi2' : s.receive_len ≤ 128 := hi2
  have hle : s.receive_pos ≤ (processLoop decStep decSize s.receive_buffer
        s.receive_len s.receive_pos s.dec).1 ∧
      (processLoop decStep decSize s.receive_buffer s.receive_len
        s.receive_pos s.dec).1 ≤ s.receive_len :=
    processLoopFuel_pos_le decStep decSize s.receive_buffer s.receive_len
      (s.receive_len - s.receive_pos) s.receive_pos s.dec hi1
  by_cases h : (processLoop decStep decSize s.receive_buffer s.receive_len
      s.receive_pos s.dec).2.2 = 0 <;>
    by_cases hpe : (processLoop decStep decSize s.receive_buffer
        s.receive_len s.receive_pos s.dec).1 = s.receive_len <;>
    by_cases ht : s.receive_track_start = false <;>
    simp [btstack_uart_slip_posix_process_buffer, SlipRxInv, SlipRxReset,
      SLIP_RECEIVE_BUFFER_SIZE, h, hpe, ht] <;>
    omega

/-- Claim C8: the frame-receive scratch-buffer invariant
`position ≤ length ≤ SLIP_RECEIVE_BUFFER_SIZE` is preserved by every
operation that touches the buffer cursors (`process_buffer`,
`process_read` with a read result bounded by the buffer capacity, and
`receive_frame`), and whenever processing leaves `position = length` both
cursors have been reset to zero. -/
theorem slip_rx_cursor_invariant {δ : Type} (decStep : δ → Nat → δ)
    (decSize : δ → Nat) (decInit : δ) (now : Nat) (bytes_read : Int)
    (data : List Nat) (s : SlipRxState δ) (hinv : SlipRxInv s)
    (hreset : SlipRxReset s)
    (hcap : bytes_read ≤ ((SLIP_RECEIVE_BUFFER_SIZE : Nat) : Int)) :
    (SlipRxInv (btstack_uart_slip_posix_process_buffer decStep decSize
          s).1 ∧
        SlipRxReset (btstack_uart_slip_posix_process_buffer decStep decSize
          s).1) ∧
      (SlipRxInv (btstack_uart_slip_posix_process_read decStep decSize now
            bytes_read data s).1 ∧
        SlipRxReset (btstack_uart_slip_posix_process_read decStep decSize
          now bytes_read data s).1) ∧
      (SlipRxInv (btstack_uart_slip_posix_receive_frame decStep decSize
            decInit s).1 ∧
        SlipRxReset (btstack_uart_slip_posix_receive_frame decStep decSize
          decInit s).1) := by
  obtain ⟨hi1, hi2⟩ := hinv
  have hcap' : bytes_read ≤ 128 := hcap
  refine ⟨process_buffer_preserves_inv decStep decSize s ⟨hi1, hi2⟩,
    ?_, ?_⟩
  · -- process_read
    by_cases hb : bytes_read < 0
    · by_cases ht : s.receive_track_start
      · simpa [btstack_uart_slip_posix_process_read, hb, ht, SlipRxInv,
          SlipRxReset] using ⟨⟨hi1, hi2⟩, hreset⟩
      · simpa [btstack_uart_slip_posix_process_read, hb, ht, SlipRxInv,
          SlipRxReset] using ⟨⟨hi1, hi2⟩, hreset⟩
    · have hinvN : ∀ (b : Bool) (t : Nat), SlipRxInv
          (⟨data, 0, bytes_read.toNat, b, t, s.receive_active, s.dec⟩ :
            SlipRxState δ) := fun b t =>
        ⟨Nat.zero_le _, show bytes_read.toNat ≤ 128 by omega⟩
      by_cases ht : s.receive_track_start
      · simp only [btstack_uart_slip_posix_process_read, ht, if_neg hb]
        simp only [if_true]
        exact process_buffer_preserves_inv decStep decSize _
          (hinvN false now)
      · simp only [btstack_uart_slip_posix_process_read,
          if_neg (show ¬ (s.receive_track_start = true) by
            simpa using ht),
          if_neg hb]
        exact process_buffer_preserves_inv decStep decSize _
          (hinvN s.receive_track_start s.receive_start_time)
  · -- receive_frame
    by_cases hlen : s.receive_len = 0
    · have hR : btstack_uart_slip_posix_receive_frame decStep decSize
          decInit s =
          ({ s with receive_active := true, receive_track_start := true,
                    dec := decInit }, [UartEv.armRead]) := by
        unfold btstack_uart_slip_posix_receive_frame
        rw [if_neg (by simp [hlen])]
      rw [hR]
      exact ⟨⟨hi1, hi2⟩, hreset⟩
    · have hpres := process_buffer_preserves_inv decStep decSize
        { s with receive_active := true, receive_track_start := true,
                 dec := decInit } ⟨hi1, hi2⟩
      by_cases hfs : (btstack_uart_slip_posix_process_buffer decStep
          decSize
          { s with receive_active := true, receive_track_start := true,
                   dec := decInit }).2.2 = 0
      · have hR : btstack_uart_slip_posix_receive_frame decStep decSize
            decInit s =
            ((btstack_uart_slip_posix_process_buffer decStep decSize
                { s with receive_active := true,
                         receive_track_start := true,
                         dec := decInit }).1,
              (btstack_uart_slip_posix_process_buffer decStep decSize
                  { s with receive_active := true,
                           receive_track_start := true,
                           dec := decInit }).2.1 ++ [UartEv.armRead]) := by
          unfold btstack_uart_slip_posix_receive_frame
          rw [if_pos (show ({ s with receive_active := true,
                                     receive_track_start := true,
                                     dec := decInit } :
                SlipRxState δ).receive_len ≠ 0 by simpa using hlen),
            if_neg (by simp [hfs])]
        rw [hR]
        exact hpres
      · have hR : btstack_uart_slip_posix_receive_frame decStep decSize
            decInit s =
            ((btstack_uart_slip_posix_process_buffer decStep decSize
                { s with receive_active := true,
                         receive_track_start := true,
                         dec := decInit }).1,
              (btstack_uart_slip_posix_process_buffer decStep decSize
                  { s with receive_active := true,
                           receive_track_start := true,
                           dec := decInit }).2.1) := by
          unfold btstack_uart_slip_posix_receive_frame
          rw [if_pos (show ({ s with receive_active := true,
                                     receive_track_start := true,
                                     dec := decInit } :
                SlipRxState δ).receive_len ≠ 0 by simpa using hlen),
            if_pos hfs]
        rw [hR]
        exact hpres

theorem slip_rx_cursor_invariant_witness :
    SlipRxInv (⟨[1, 2], 1, 2, false, 0, true, 0⟩ : SlipRxState Nat) ∧
      SlipRxReset (⟨[1, 2], 1, 2, false, 0, true, 0⟩ : SlipRxState Nat) ∧
      (2 : Int) ≤ ((SLIP_RECEIVE_BUFFER_SIZE : Nat) : Int) ∧
      (SlipRxInv (btstack_uart_slip_posix_process_read (fun d _ => d)
            (fun _ => 0) 0 2 [5, 6]
            (⟨[1, 2], 1, 2, false, 0, true, 0⟩ : SlipRxState Nat)).1 ∧
        SlipRxReset (btstack_uart_slip_posix_process_read (fun d _ => d)
          (fun _ => 0) 0 2 [5, 6]
          (⟨[1, 2], 1, 2, false, 0, true, 0⟩ : SlipRxState Nat)).1) := by
  have h := slip_rx_cursor_invariant (fun d _ => d) (fun _ => (0 : Nat)) 0
    0 2 [5, 6] (⟨[1, 2], 1, 2, false, 0, true, 0⟩ : SlipRxState Nat)
    (by decide) (by decide) (by decide)
  exact ⟨by decide, by decide, by decide, h.2.1⟩

/-- Claim C10: if `send_frame` is called with a frame for which the encoder
reports no pending bytes (the built chunk has length zero), the call
submits an empty chunk and arms write interest, but every subsequent
write-readiness dispatch is a no-op: the frame-sent callback never fires,
write interest is never disarmed, and the frame-send active flag remains
set forever — the send never completes. -/
theorem send_frame_empty_encoding_stall {δ : Type} (decStep : δ → Nat → δ)
    (decSize : δ → Nat) (s0 : UartState δ) (rs : List Int)
    (hfd : 0 ≤ s0.fd) :
    (btstack_uart_slip_posix_send_frame s0.tx []).2 =
        [UartEv.chunkSubmitted 0, UartEv.armWrite] ∧
      (btstack_uart_slip_posix_send_frame s0.tx []).1.write_active = true ∧
      runWriteDispatches decStep decSize
          { s0 with tx := (btstack_uart_slip_posix_send_frame s0.tx []).1 }
          rs =
        ({ s0 with
            tx := (btstack_uart_slip_posix_send_frame s0.tx []).1 },
          []) := by
  have h1 : ¬ (s0.fd < 0) := by omega
  refine ⟨rfl, rfl, ?_⟩
  induction rs with
  | nil => rfl
  | cons r rs ih =>
    have hstep : hci_uart_posix_process decStep decSize
        { s0 with tx := (btstack_uart_slip_posix_send_frame s0.tx []).1 }
        (DispatchInput.write r) =
        ({ s0 with
            tx := (btstack_uart_slip_posix_send_frame s0.tx []).1 },
          []) := by
      simp [hci_uart_posix_process, btstack_uart_slip_posix_send_frame,
        btstack_uart_slip_posix_encode_chunk_and_send,
        btstack_uart_slip_posix_process_write, h1]
    simp only [runWriteDispatches, hstep]
    simpa using ih

theorem send_frame_empty_encoding_stall_witness :
    (0 : Int) ≤ ((⟨0, ⟨0, 0, 0, 0⟩, ⟨0, 0, false, [], []⟩,
        ⟨[], 0, 0, false, 0, false, 0⟩⟩ : UartState Nat)).fd ∧
      runWriteDispatches (fun d _ => d) (fun _ => (0 : Nat))
          { (⟨0, ⟨0, 0, 0, 0⟩, ⟨0, 0, false, [], []⟩,
              ⟨[], 0, 0, false, 0, false, 0⟩⟩ : UartState Nat) with
            tx := (btstack_uart_slip_posix_send_frame
              ((⟨0, ⟨0, 0, 0, 0⟩, ⟨0, 0, false, [], []⟩,
                ⟨[], 0, 0, false, 0, false, 0⟩⟩ : UartState Nat)).tx
              []).1 }
          [2, -1, 0] =
        ({ (⟨0, ⟨0, 0, 0, 0⟩, ⟨0, 0, false, [], []⟩,
              ⟨[], 0, 0, false, 0, false, 0⟩⟩ : UartState Nat) with
            tx := (btstack_uart_slip_posix_send_frame
              ((⟨0, ⟨0, 0, 0, 0⟩, ⟨0, 0, false, [], []⟩,
                ⟨[], 0, 0, false, 0, false, 0⟩⟩ : UartState Nat)).tx
              []).1 },
          []) := by
  have h := send_frame_empty_encoding_stall (fun d _ => d)
    (fun _ => (0 : Nat))
    (⟨0, ⟨0, 0, 0, 0⟩, ⟨0, 0, false, [], []⟩,
      ⟨[], 0, 0, false, 0, false, 0⟩⟩ : UartState Nat)
    [2, -1, 0] (by decide)
  exact ⟨by decide, h.2.2⟩

/-- A run of full-write dispatches on an inactive send does nothing. -/
theorem runSlipFullWrites_inactive : ∀ (fuel : Nat) (s : SlipTxState),
    s.write_active = false → runSlipFullWrites fuel s = (s, []) := by
  intro fuel s h
  cases fuel with
  | zero => rfl
  | succ fuel => simp [runSlipFullWrites, h]

/-- The state produced by `encode_chunk_and_send`, written out. -/
theorem encode_state_eq (s : SlipTxState) :
    (btstack_uart_slip_posix_encode_chunk_and_send s).1 =
      { s with
        outgoing_buffer :=
          s.encoder_rem.take (min s.encoder_rem.length SLIP_TX_CHUNK_LEN),
        encoder_rem :=
          s.encoder_rem.drop (min s.encoder_rem.length SLIP_TX_CHUNK_LEN),
        write_bytes_off := 0,
        write_bytes_len :=
          ((min s.encoder_rem.length SLIP_TX_CHUNK_LEN : Nat) : Int) } :=
  rfl

/-- The events produced by `encode_chunk_and_send`, written out. -/
theorem encode_evs_eq (s : SlipTxState) :
    (btstack_uart_slip_posix_encode_chunk_and_send s).2 =
      [UartEv.chunkSubmitted
        (min s.encoder_rem.length SLIP_TX_CHUNK_LEN),
        UartEv.armWrite] :=
  rfl

/-- One active full-write step of the run. -/
theorem runSlipFullWrites_succ_active (fuel : Nat) (t : SlipTxState)
    (hact : t.write_active = true) :
    runSlipFullWrites (fuel + 1) t =
      ((runSlipFullWrites fuel
          (btstack_uart_slip_posix_process_write t
            t.write_bytes_len).1).1,
        (btstack_uart_slip_posix_process_write t t.write_bytes_len).2 ++
          (runSlipFullWrites fuel
            (btstack_uart_slip_posix_process_write t
              t.write_bytes_len).1).2) := by
  simp [runSlipFullWrites, hact]

/-- A write-readiness dispatch that writes the whole pending chunk:
advances past the chunk, disarms write interest, and continues into
`block_sent` — either the next chunk is encoded and submitted or the frame
send completes. -/
theorem slip_process_write_full (t : SlipTxState)
    (hpos : 0 < t.write_bytes_len) :
    btstack_uart_slip_posix_process_write t t.write_bytes_len =
      (if t.encoder_rem ≠ [] then
        ((btstack_uart_slip_posix_encode_chunk_and_send
            { t with
              write_bytes_off :=
                t.write_bytes_off + t.write_bytes_len.toNat,
              write_bytes_len := 0 }).1,
          UartEv.disarmWrite ::
            (btstack_uart_slip_posix_encode_chunk_and_send
              { t with
                write_bytes_off :=
                  t.write_bytes_off + t.write_bytes_len.toNat,
                write_bytes_len := 0 }).2)
      else
        ({ t with
            write_bytes_off := t.write_bytes_off + t.write_bytes_len.toNat,
            write_bytes_len := 0, write_active := false },
          [UartEv.disarmWrite, UartEv.frameSent])) := by
  unfold btstack_uart_slip_posix_process_write
    btstack_uart_slip_posix_block_sent
  rw [if_neg (by omega), if_neg (by omega)]
  by_cases hrem : t.encoder_rem = [] <;> simp [hrem]
/-- Generic event-trace helpers for the chunked-send run. -/
theorem countChunkSubs_lead (c : Nat) (l : List UartEv) :
    countChunkSubs (UartEv.disarmWrite :: UartEv.chunkSubmitted c ::
      UartEv.armWrite :: l) = 1 + countChunkSubs l := by
  simp [countChunkSubs, List.countP_cons]
  omega

/-- Counting `frameSent` ignores a disarm/chunk/arm prefix. -/
theorem count_frameSent_lead (c : Nat) (l : List UartEv) :
    List.count UartEv.frameSent (UartEv.disarmWrite ::
      UartEv.chunkSubmitted c :: UartEv.armWrite :: l) =
      List.count UartEv.frameSent l := by
  simp [List.count_cons]

/-- The last event of a three-element prefix plus a nonempty tail is the
last event of the tail. -/
theorem getLast_three_cons (a b c : UartEv) (l : List UartEv)
    (h : l ≠ []) : (a :: b :: c :: l).getLast? = l.getLast? :=
  List.getLast?_append_of_ne_nil [a, b, c] h

/-- Core run lemma: starting from an active send whose current chunk was
just encoded from the remaining encoder stream, driving the write path with
full physical writes submits one chunk per `SLIP_TX_CHUNK_LEN`-sized slice
of the remaining stream, each of size at most `SLIP_TX_CHUNK_LEN`, fires
`frame_sent` exactly once and as the very last event, and ends with the
send inactive and the encoder drained. -/
theorem runSlipFullWrites_encode : ∀ (fuel : Nat) (s : SlipTxState),
    s.write_active = true → s.encoder_rem ≠ [] →
    s.encoder_rem.length ≤ fuel →
    countChunkSubs (runSlipFullWrites fuel
        (btstack_uart_slip_posix_encode_chunk_and_send s).1).2 =
        (s.encoder_rem.length - 1) / SLIP_TX_CHUNK_LEN ∧
      (∀ n, UartEv.chunkSubmitted n ∈ (runSlipFullWrites fuel
          (btstack_uart_slip_posix_encode_chunk_and_send s).1).2 →
        n ≤ SLIP_TX_CHUNK_LEN) ∧
      (runSlipFullWrites fuel
          (btstack_uart_slip_posix_encode_chunk_and_send s).1).2.count
        UartEv.frameSent = 1 ∧
      (runSlipFullWrites fuel
          (btstack_uart_slip_posix_encode_chunk_and_send s).1).2.getLast? =
        some UartEv.frameSent ∧
      (runSlipFullWrites fuel
          (btstack_uart_slip_posix_encode_chunk_and_send
            s).1).1.write_active = false ∧
      (runSlipFullWrites fuel
          (btstack_uart_slip_posix_encode_chunk_and_send
            s).1).1.encoder_rem = [] := by
  intro fuel
  induction fuel with
  | zero =>
    intro s _ hne hlen
    exact absurd (List.eq_nil_of_length_eq_zero (Nat.le_zero.mp hlen)) hne
  | succ fuel ih =>
    intro s hact hne hlen
    have hSC : SLIP_TX_CHUNK_LEN = 128 := rfl
    have hn1 : 1 ≤ s.encoder_rem.length := List.length_pos.mpr hne
    have hactE : (btstack_uart_slip_posix_encode_chunk_and_send
        s).1.write_active = true := hact
    have hremE : (btstack_uart_slip_posix_encode_chunk_and_send
        s).1.encoder_rem =
        s.encoder_rem.drop (min s.encoder_rem.length SLIP_TX_CHUNK_LEN) :=
      rfl
    have hposE : (0 : Int) <
        (btstack_uart_slip_posix_encode_chunk_and_send
          s).1.write_bytes_len := by
      show (0 : Int) <
        ((min s.encoder_rem.length SLIP_TX_CHUNK_LEN : Nat) : Int)
      have hmpos : 0 < min s.encoder_rem.length SLIP_TX_CHUNK_LEN :=
        lt_min (by omega) (by rw [hSC]; omega)
      exact_mod_cast hmpos
    rw [runSlipFullWrites_succ_active fuel _ hactE]
    rw [slip_process_write_full _ hposE]
    by_cases hA : s.encoder_rem.length ≤ SLIP_TX_CHUNK_LEN
    · -- final chunk: the dispatch completes the frame
      have hmin : min s.encoder_rem.length SLIP_TX_CHUNK_LEN =
          s.encoder_rem.length := min_eq_left hA
      have hdropnil : (btstack_uart_slip_posix_encode_chunk_and_send
          s).1.encoder_rem = [] := by
        rw [hremE, hmin]
        exact List.drop_length s.encoder_rem
      rw [if_neg (by simp [hdropnil])]
      rw [runSlipFullWrites_inactive fuel _ rfl]
      refine ⟨?_, ?_, ?_, ?_, rfl, ?_⟩
      · have hz : (s.encoder_rem.length - 1) / SLIP_TX_CHUNK_LEN = 0 :=
          Nat.div_eq_of_lt (by rw [hSC]; rw [hSC] at hA; omega)
        rw [hz]
        rfl
      · intro n hn
        simp [countChunkSubs] at hn
      · rfl
      · rfl
      · exact hdropnil
    · -- at least one further chunk follows
      have h128le : SLIP_TX_CHUNK_LEN ≤ s.encoder_rem.length := by omega
      have hmin : min s.encoder_rem.length SLIP_TX_CHUNK_LEN =
          SLIP_TX_CHUNK_LEN := min_eq_right h128le
      have hdroplen : ((btstack_uart_slip_posix_encode_chunk_and_send
          s).1.encoder_rem).length = s.encoder_rem.length - 128 := by
        rw [hremE, hmin, hSC, List.length_drop]
      have hdropne : (btstack_uart_slip_posix_encode_chunk_and_send
          s).1.encoder_rem ≠ [] := by
        intro h
        have hl := congrArg List.length h
        rw [hdroplen] at hl
        simp at hl
        rw [hSC] at hA
        omega
      rw [if_pos hdropne]
      set M : SlipTxState :=
        { (btstack_uart_slip_posix_encode_chunk_and_send s).1 with
          write_bytes_off :=
            (btstack_uart_slip_posix_encode_chunk_and_send
              s).1.write_bytes_off +
            (btstack_uart_slip_posix_encode_chunk_and_send
              s).1.write_bytes_len.toNat,
          write_bytes_len := 0 } with hMdef
      have hactM : M.write_active = true := hactE
      have hneM : M.encoder_rem ≠ [] := hdropne
      have hMlen : M.encoder_rem.length = s.encoder_rem.length - 128 :=
        hdroplen
      have hlenM : M.encoder_rem.length ≤ fuel := by
        rw [hMlen]
        rw [hSC] at hA
        omega
      obtain ⟨hM1, hM2, hM3, hM4, hM5, hM6⟩ := ih M hactM hneM hlenM
      rw [hMlen] at hM1
      have hqne : (runSlipFullWrites fuel
          (btstack_uart_slip_posix_encode_chunk_and_send M).1).2 ≠ [] := by
        intro h
        rw [h] at hM3
        simp at hM3
      refine ⟨?_, ?_, ?_, ?_, hM5, hM6⟩
      · rw [encode_evs_eq M]
        simp only [List.cons_append, List.nil_append]
        rw [countChunkSubs_lead, hM1, hSC]
        rw [show s.encoder_rem.length - 128 - 1 =
          s.encoder_rem.length - 129 by omega]
        rw [show s.encoder_rem.length - 1 =
          (s.encoder_rem.length - 129) + 128 by
            rw [hSC] at hA
            omega]
        rw [Nat.add_div_right _ (by norm_num)]
        omega
      · intro n hn
        rw [encode_evs_eq M] at hn
        simp only [List.cons_append, List.nil_append, List.mem_cons] at hn
        rcases hn with h | h | h | h
        · simp at h
        · have hn' : n = min M.encoder_rem.length SLIP_TX_CHUNK_LEN := by
            injection h
          rw [hn']
          exact min_le_right _ _
        · simp at h
        · exact hM2 n h
      · rw [encode_evs_eq M]
        simp only [List.cons_append, List.nil_append]
        rw [count_frameSent_lead]
        exact hM3
      · rw [encode_evs_eq M]
        simp only [List.cons_append, List.nil_append]
        rw [getLast_three_cons _ _ _ _ hqne]
        exact hM4

/-- Chunk counting ignores the leading submission's arm event. -/
theorem countChunkSubs_send_lead (c : Nat) (l : List UartEv) :
    countChunkSubs (UartEv.chunkSubmitted c :: UartEv.armWrite :: l) =
      1 + countChunkSubs l := by
  simp [countChunkSubs, List.countP_cons]
  omega

/-- Counting `frameSent` ignores a chunk/arm prefix. -/
theorem count_frameSent_send_lead (c : Nat) (l : List UartEv) :
    List.count UartEv.frameSent (UartEv.chunkSubmitted c ::
      UartEv.armWrite :: l) = List.count UartEv.frameSent l := by
  simp [List.count_cons]

/-- The last event of a two-element prefix plus a nonempty tail is the last
event of the tail. -/
theorem getLast_two_cons (a b : UartEv) (l : List UartEv) (h : l ≠ []) :
    (a :: b :: l).getLast? = l.getLast? :=
  List.getLast?_append_of_ne_nil [a, b] h

/-- Claim C7: a `send_frame` whose encoding occupies k chunks of the
fixed-capacity chunk buffer — k = ceiling(encoded length /
`SLIP_TX_CHUNK_LEN`) — submits exactly k chunk writes, each of length at
most `SLIP_TX_CHUNK_LEN`; after the final chunk is fully written the
send-active flag is cleared and the frame-sent callback fires exactly once,
as the very last event of the run — never while the encoder still has
pending output (the encoder is drained when it fires). -/
theorem send_frame_chunks_and_completion (s0 : SlipTxState)
    (encoded : List Nat) (hne : encoded ≠ []) :
    countChunkSubs (slipSendFullRun s0 encoded).2 =
        (encoded.length + SLIP_TX_CHUNK_LEN - 1) / SLIP_TX_CHUNK_LEN ∧
      (∀ n, UartEv.chunkSubmitted n ∈ (slipSendFullRun s0 encoded).2 →
        n ≤ SLIP_TX_CHUNK_LEN) ∧
      (slipSendFullRun s0 encoded).2.count UartEv.frameSent = 1 ∧
      (slipSendFullRun s0 encoded).2.getLast? = some UartEv.frameSent ∧
      (slipSendFullRun s0 encoded).1.write_active = false ∧
      (slipSendFullRun s0 encoded).1.encoder_rem = [] := by
  have hSC : SLIP_TX_CHUNK_LEN = 128 := rfl
  have hn1 : 1 ≤ encoded.length := List.length_pos.mpr hne
  have hSrem : ({ s0 with write_active := true, encoder_rem := encoded } :
      SlipTxState).encoder_rem = encoded := rfl
  obtain ⟨hc1, hc2, hc3, hc4, hc5, hc6⟩ := runSlipFullWrites_encode
    encoded.length
    { s0 with write_active := true, encoder_rem := encoded }
    rfl hne (le_refl _)
  rw [hSrem] at hc1
  have hqne : (runSlipFullWrites encoded.length
      (btstack_uart_slip_posix_encode_chunk_and_send
        { s0 with write_active := true,
                  encoder_rem := encoded }).1).2 ≠ [] := by
    intro h
    rw [h] at hc3
    simp at hc3
  simp only [slipSendFullRun, btstack_uart_slip_posix_send_frame]
  refine ⟨?_, ?_, ?_, ?_, hc5, hc6⟩
  · rw [encode_evs_eq]
    simp only [List.cons_append, List.nil_append]
    rw [countChunkSubs_send_lead, hc1, hSC]
    rw [show encoded.length + 128 - 1 = (encoded.length - 1) + 128 by
      omega]
    rw [Nat.add_div_right _ (by norm_num)]
    omega
  · intro n hn
    rw [encode_evs_eq] at hn
    simp only [List.cons_append, List.nil_append, List.mem_cons] at hn
    rcases hn with h | h | h
    · injection h with h
      rw [h]
      exact min_le_right _ _
    · simp at h
    · exact hc2 n h
  · rw [encode_evs_eq]
    simp only [List.cons_append, List.nil_append]
    rw [count_frameSent_send_lead]
    exact hc3
  · rw [encode_evs_eq]
    simp only [List.cons_append, List.nil_append]
    rw [getLast_two_cons _ _ _ hqne]
    exact hc4

theorem send_frame_chunks_and_completion_witness :
    ([1, 2, 3] : List Nat) ≠ [] ∧
      countChunkSubs (slipSendFullRun ⟨0, 0, false, [], []⟩
        [1, 2, 3]).2 = 1 ∧
      (slipSendFullRun ⟨0, 0, false, [], []⟩ [1, 2, 3]).2.count
        UartEv.frameSent = 1 ∧
      (slipSendFullRun ⟨0, 0, false, [], []⟩
        [1, 2, 3]).1.write_active = false := by
  have h := send_frame_chunks_and_completion ⟨0, 0, false, [], []⟩
    [1, 2, 3] (by decide)
  refine ⟨by decide, ?_, h.2.2.1, h.2.2.2.2.1⟩
  rw [h.1]
  decide

end BtstackUartPosix
